import Mathlib

/-!
# Verification of the youtube_night playback-synchronization core

Shallow embedding of the Go server's real-time core: the per-room (gang)
WebSocket hub (`srv/internal/websocket`), the playback-state tracker kept in
the hub's `currentVideos` map, the in-memory game-state manager
(`srv/internal/states/game.go`) and the HMAC-signed session-token store
(`srv/internal/stores/sessions.go`).

Conventions of the embedding:
* wall-clock instants and second-valued durations (Go `time.Time` /
  `float64` seconds) are rationals (`ℚ`); `time.Since(t)` at instant `now`
  becomes `now - t`;
* Go maps keyed by `int32` gang ids become functions `Int → Option _`;
* a gang's `map[*Client]bool` set becomes a `List Client` where the `id`
  field plays the role of the pointer identity (two distinct map keys have
  distinct `id`s);
* a client's buffered `Send` channel becomes the list of queued messages
  plus the capacity it was created with; a non-blocking channel send
  succeeds exactly when the queue is below capacity; closing a channel is
  recorded in the `closedChannels` ghost field of the hub;
* byte strings are `List Nat` with every entry `< 256`.
-/

namespace YoutubeNight

/-! ## Playback state (hub `currentVideos` map, `client.go` / hub source)

`CurrentVideo` mirrors the Go struct field for field. -/

structure CurrentVideo where
  videoID : String
  index : Int
  title : String
  channel : String
  startedAt : ℚ
  isPaused : Bool
  /-- Timestamp where video was paused -/
  pausedAt : ℚ
  /-- Time when the most recent pause occurred; `none` models Go's zero
  `time.Time` (`LastPause.IsZero()`). -/
  lastPause : Option ℚ
  /-- Accumulated time in seconds the video has been paused -/
  totalPausedTime : ℚ
  /-- Host-reported playback position when `UpdatedAt` was recorded -/
  hostTimestamp : ℚ
  /-- Last time the host reported playback state -/
  updatedAt : ℚ
  /-- Last host action (play, pause, seek) -/
  lastAction : String
  deriving Repr, DecidableEq

/-- The `current_video` message unicast to a late joiner.
Modelled from the spec: the body of `SendCurrentVideo` is not part of the
sources at hand (only its call sites in the hub's register branch are); the
spec's external-interface table gives the `current_video` message the fields
`videoId, index, title, channel, timestamp, isPaused`. -/
structure CurrentVideoMsg where
  videoID : String
  index : Int
  title : String
  channel : String
  timestamp : ℚ
  isPaused : Bool
  deriving Repr, DecidableEq

/-- A registered WebSocket client (Go `Client`): gang membership, host flag
and the outbound buffered channel.  `id` stands for the Go pointer identity,
`sendBuf` for the messages queued in the `Send` channel and `sendCap` for
the capacity the channel was created with. -/
structure Client where
  id : Nat
  gangID : Int
  userID : Int
  isHost : Bool
  sendBuf : List String
  sendCap : Nat
  deriving Repr, DecidableEq

/-- Outbound channel capacity used by `ServeWs` (`handler.go`):
`Send: make(chan []byte, 256)`. -/
def sendCapacity : Nat := 256

/-- The client built by `ServeWs` (`handler.go`): fresh empty outbound
buffer of capacity 256. -/
def serveWsClient (id : Nat) (userID gangID : Int) (isHost : Bool) : Client :=
  { id := id, gangID := gangID, userID := userID, isHost := isHost,
    sendBuf := [], sendCap := sendCapacity }

/-- The hub state (Go `Hub`): the room→clients registry, the room→playback
map, and a ghost trace of the client ids whose `Send` channel has been
closed (`close(client.Send)` events). -/
structure Hub where
  gangClients : Int → Option (List Client)
  currentVideos : Int → Option CurrentVideo
  closedChannels : List Nat

/-- A hub with no gangs, no videos (Go `NewHub`). -/
def newHub : Hub :=
  { gangClients := fun _ => none, currentVideos := fun _ => none,
    closedChannels := [] }

/-- Pointwise map update, standing in for Go map assignment. -/
def mapSet {α : Type} (m : Int → Option α) (k : Int) (v : Option α) :
    Int → Option α :=
  fun k' => if k' = k then v else m k'

/-- The late-joiner elapsed computation in the hub's register branch:
`elapsedTime := cv.HostTimestamp; if !cv.IsPaused { elapsedTime +=
time.Since(cv.UpdatedAt).Seconds() }; if elapsedTime < 0 { elapsedTime = 0 }`. -/
def lateJoinerElapsed (cv : CurrentVideo) (now : ℚ) : ℚ :=
  let elapsedTime := cv.hostTimestamp
  let elapsedTime := if cv.isPaused then elapsedTime
    else elapsedTime + (now - cv.updatedAt)
  if elapsedTime < 0 then 0 else elapsedTime

/-- The register branch of `Hub.Run`: insert the client into its gang's set
(creating the set if absent; re-registering the same pointer is the
overwrite `map[client] = true`), and if a current video exists for the gang
compute the late-joiner timestamp and unicast a `current_video` message to
exactly this client (returned as the second component). -/
def registerClient (h : Hub) (c : Client) (now : ℚ) :
    Hub × Option CurrentVideoMsg :=
  let cs := (h.gangClients c.gangID).getD []
  let cs' := if cs.any (fun x => x.id = c.id) then cs else cs ++ [c]
  let h' := { h with gangClients := mapSet h.gangClients c.gangID (some cs') }
  match h.currentVideos c.gangID with
  | none => (h', none)
  | some cv =>
    (h', some { videoID := cv.videoID, index := cv.index, title := cv.title,
                channel := cv.channel,
                timestamp := lateJoinerElapsed cv now,
                isPaused := cv.isPaused })

/-- The unregister branch of `Hub.Run`: if the client (pointer) is present
in its gang's set, remove it, close its `Send` channel, and prune the gang
entry when it became empty; otherwise do nothing. -/
def unregisterClient (h : Hub) (c : Client) : Hub :=
  match h.gangClients c.gangID with
  | none => h
  | some cs =>
    if cs.any (fun x => x.id = c.id) then
      let cs' := cs.filter (fun x => x.id ≠ c.id)
      let gc := if cs'.isEmpty then mapSet h.gangClients c.gangID none
        else mapSet h.gangClients c.gangID (some cs')
      { h with gangClients := gc, closedChannels := h.closedChannels ++ [c.id] }
    else h

/-- `Hub.SetCurrentVideo` (current hub source): stores the caller-supplied
video for the gang after resetting the whole timeline:
`StartedAt = now, TotalPausedTime = 0, IsPaused = false, PausedAt = 0,
HostTimestamp = 0, UpdatedAt = now, LastAction = "play"` (the
`LastPause.IsZero()` branch re-assigns the zero value, a no-op). -/
def setCurrentVideo (h : Hub) (gangID : Int) (video : CurrentVideo)
    (now : ℚ) : Hub :=
  let video := { video with
    startedAt := now, totalPausedTime := 0, isPaused := false,
    pausedAt := 0, hostTimestamp := 0, updatedAt := now,
    lastAction := "play" }
  { h with currentVideos := mapSet h.currentVideos gangID (some video) }

/-- `Hub.UpdatePlaybackState` (current hub source): no-op when the gang has
no video; otherwise record the pause instant on a play→pause transition,
accumulate the (clamped) pause duration and clear `LastPause` on a
pause→play transition, then store the host-reported state:
`IsPaused, PausedAt, HostTimestamp = timestamp, UpdatedAt = now,
LastAction = action`. -/
def updatePlaybackState (h : Hub) (gangID : Int) (action : String)
    (timestamp : ℚ) (isPaused : Bool) (now : ℚ) : Hub :=
  match h.currentVideos gangID with
  | none => h
  | some video =>
    let wasPaused := video.isPaused
    let video := if ¬wasPaused ∧ isPaused then
        { video with lastPause := some now } else video
    let video :=
      if wasPaused ∧ ¬isPaused then
        match video.lastPause with
        | none => video
        | some lp =>
          let pauseDuration := now - lp
          let pauseDuration := if pauseDuration < 0 then 0 else pauseDuration
          { video with totalPausedTime := video.totalPausedTime + pauseDuration,
                       lastPause := none }
      else video
    let video := { video with
      isPaused := isPaused,
      pausedAt := if isPaused then timestamp else 0,
      hostTimestamp := timestamp, updatedAt := now, lastAction := action }
    { h with currentVideos := mapSet h.currentVideos gangID (some video) }

/-- `Hub.BroadcastToGang`: for every client of the gang a non-blocking send
of `message` into its `Send` channel is attempted.  A send into a buffered
channel whose consumer is not ready succeeds exactly when the buffer is
below capacity; on failure the client's channel is closed and the client is
deleted from the gang's set, and the gang entry itself is deleted when a
deletion left it empty.  Gangs other than `gangID` are untouched. -/
def broadcastToGang (h : Hub) (gangID : Int) (message : String) : Hub :=
  match h.gangClients gangID with
  | none => h
  | some clients =>
    let kept := clients.filterMap (fun c =>
      if c.sendBuf.length < c.sendCap then
        some { c with sendBuf := c.sendBuf ++ [message] }
      else none)
    let dropped := clients.filter (fun c => ¬ c.sendBuf.length < c.sendCap)
    let gc := if kept.isEmpty ∧ ¬ dropped.isEmpty then
        mapSet h.gangClients gangID none
      else mapSet h.gangClients gangID (some kept)
    { h with gangClients := gc,
             closedChannels := h.closedChannels ++ dropped.map Client.id }

/-! ## Game state manager (`srv/internal/states/game.go`)

`db.Video` and `db.User` are rows produced by the generated database layer
(not part of the hand-written sources); only the fields used by the game
manager and its callers are carried. -/

structure Video where
  videoID : String
  title : String
  channelName : String
  thumbnailUrl : String
  deriving Repr, DecidableEq

structure User where
  id : Int
  name : String
  deriving Repr, DecidableEq

/-- Go `states.GameState` (the `sync.RWMutex` field has no pure content). -/
structure GameState where
  gangID : Int
  startedAt : ℚ
  videos : List Video
  gangMembers : List User
  /-- Map of videoID → submitterID -/
  submitters : List (String × Int)
  deriving Repr, DecidableEq

/-- Go `states.GameStateManager`: the map of gangID → active game state. -/
structure GameStateManager where
  activeGames : Int → Option GameState

/-- `states.NewGameStateManager`: empty map. -/
def newGameStateManager : GameStateManager := ⟨fun _ => none⟩

/-- `GameStateManager.StartGame`: fails (returns `false`, no mutation) when
a game is already active for the gang, otherwise installs a fresh
`GameState` with `StartedAt = now` and returns `true`. -/
def startGame (m : GameStateManager) (gangID : Int) (videos : List Video)
    (members : List User) (submitters : List (String × Int)) (now : ℚ) :
    GameStateManager × Bool :=
  match m.activeGames gangID with
  | some _ => (m, false)
  | none =>
    ({ activeGames := mapSet m.activeGames gangID
        (some { gangID := gangID, startedAt := now, videos := videos,
                gangMembers := members, submitters := submitters }) }, true)

/-- `GameStateManager.StopGame`: fails when no game is active, otherwise
deletes the entry. -/
def stopGame (m : GameStateManager) (gangID : Int) : GameStateManager × Bool :=
  match m.activeGames gangID with
  | none => (m, false)
  | some _ => ({ activeGames := mapSet m.activeGames gangID none }, true)

/-! ## Concrete sample inputs used by the witness theorems -/

def sampleVideo : CurrentVideo :=
  { videoID := "abc", index := 0, title := "T", channel := "C",
    startedAt := 0, isPaused := false, pausedAt := 0, lastPause := none,
    totalPausedTime := 0, hostTimestamp := 0, updatedAt := 0,
    lastAction := "" }

/-- The playback state of gang 1 after `setCurrentVideo newHub 1 sampleVideo 0`. -/
def syncedSampleVideo : CurrentVideo :=
  { sampleVideo with startedAt := 0, totalPausedTime := 0, isPaused := false,
                     pausedAt := 0, hostTimestamp := 0, updatedAt := 0,
                     lastAction := "play" }

/-- A client whose outbound buffer is already full (256 queued messages). -/
def fullClient : Client :=
  { id := 1, gangID := 5, userID := 3, isHost := true,
    sendBuf := List.replicate 256 "m", sendCap := sendCapacity }

/-- A hub whose gang 5 holds exactly `fullClient`. -/
def fullClientHub : Hub :=
  { newHub with gangClients := mapSet newHub.gangClients 5 (some [fullClient]) }

/-- A freshly connected client in gang 5 (empty buffer). -/
def freshClient : Client := serveWsClient 2 4 5 false

/-- A hub whose gang 5 holds exactly `freshClient`. -/
def freshClientHub : Hub :=
  { newHub with gangClients := mapSet newHub.gangClients 5 (some [freshClient]) }

/-! ## Session tokens (`srv/internal/stores/sessions.go`)

`SessionData` mirrors the Go struct; Unix-second timestamps are `Int`
(Go `int64`). -/

structure SessionData where
  userId : Int
  gangId : Int
  gangName : String
  name : String
  avatar : String
  createdAt : Int
  expiry : Int
  deriving Repr, DecidableEq

/-! ### Byte-level serialization

`encoding/json` and its inverse are external library collaborators; they
are modelled at their contract by a concrete injective byte serialization
of `SessionData` with an executable decoder (the exact wire format of the
library is irrelevant to the store: it only relies on marshal/unmarshal
being mutually inverse and producing bytes).  All bytes are `< 256`. -/

/-- Little-endian base-255 digits of `n` (fuel-driven so that it reduces in
the kernel); the fuel is always instantiated with `n` itself, which
suffices since the argument shrinks by a factor of 255 each step. -/
def natDigitsAux : Nat → Nat → List Nat
  | _, 0 => []
  | 0, _ + 1 => []
  | fuel + 1, n + 1 => (n + 1) % 255 :: natDigitsAux fuel ((n + 1) / 255)

/-- Self-delimiting byte encoding of a natural number: base-255 digits
followed by the terminator byte 255. -/
def encNat (n : Nat) : List Nat :=
  natDigitsAux n n ++ [255]

/-- Recombine little-endian base-255 digits. -/
def ofDigits255 : List Nat → Nat
  | [] => 0
  | d :: ds => d + 255 * ofDigits255 ds

/-- Scan digits up to the 255 terminator. -/
def decNatAux : List Nat → Option (List Nat × List Nat)
  | [] => none
  | b :: rest =>
    if b = 255 then some ([], rest)
    else match decNatAux rest with
      | none => none
      | some (ds, r) => some (b :: ds, r)

/-- Decode a natural number; returns the value and the remaining bytes. -/
def decNat (l : List Nat) : Option (Nat × List Nat) :=
  match decNatAux l with
  | none => none
  | some (ds, r) => some (ofDigits255 ds, r)

/-- Sign byte followed by the encoded absolute value. -/
def encInt (i : Int) : List Nat :=
  (if i < 0 then 1 else 0) :: encNat i.natAbs

def decInt (l : List Nat) : Option (Int × List Nat) :=
  match l with
  | [] => none
  | s :: rest =>
    match decNat rest with
    | none => none
    | some (n, r) => some (if s = 1 then -(n : Int) else (n : Int), r)

/-- A character as three little-endian bytes (code points are `< 2^21`). -/
def encChar (c : Char) : List Nat :=
  [c.toNat % 256, c.toNat / 256 % 256, c.toNat / 65536]

def decChars : Nat → List Nat → Option (List Char × List Nat)
  | 0, l => some ([], l)
  | k + 1, b0 :: b1 :: b2 :: rest =>
    match decChars k rest with
    | none => none
    | some (cs, r) => some (Char.ofNat (b0 + 256 * b1 + 65536 * b2) :: cs, r)
  | _ + 1, _ => none

/-- Length-prefixed string encoding, three bytes per character. -/
def encString (s : String) : List Nat :=
  encNat s.data.length ++ (s.data.map encChar).flatten

def decString (l : List Nat) : Option (String × List Nat) :=
  match decNat l with
  | none => none
  | some (n, r) =>
    match decChars n r with
    | none => none
    | some (cs, r') => some (String.mk cs, r')

/-- The marshalled form of `SessionData`: its seven fields in declaration
order (the order `encoding/json` uses for a Go struct). -/
def encodeSessionData (d : SessionData) : List Nat :=
  encInt d.userId ++ encInt d.gangId ++ encString d.gangName ++
    encString d.name ++ encString d.avatar ++ encInt d.createdAt ++
    encInt d.expiry

def decodeSessionData (l : List Nat) : Option SessionData :=
  match decInt l with
  | none => none
  | some (userId, l) =>
  match decInt l with
  | none => none
  | some (gangId, l) =>
  match decString l with
  | none => none
  | some (gangName, l) =>
  match decString l with
  | none => none
  | some (name, l) =>
  match decString l with
  | none => none
  | some (avatar, l) =>
  match decInt l with
  | none => none
  | some (createdAt, l) =>
  match decInt l with
  | none => none
  | some (expiry, l) =>
  match l with
  | [] => some { userId := userId, gangId := gangId, gangName := gangName,
                 name := name, avatar := avatar, createdAt := createdAt,
                 expiry := expiry }
  | _ => none


/-! ### base64url

`encoding/base64.URLEncoding` (padded RFC 4648 URL-safe alphabet) modelled
concretely: 3 bytes become 4 sextet characters, with `=` padding for 1- or
2-byte tails. -/

/-- The URL-safe base64 alphabet. -/
def b64Chars : List Char :=
  String.data "ABCDEFGHIJKLMNOPQRSTUVWXYZabcdefghijklmnopqrstuvwxyz0123456789-_"

def sixToChar (n : Nat) : Char := b64Chars.getD (n % 64) 'A'

def charToSix (c : Char) : Option Nat := b64Chars.findIdx? (fun x => x = c)

def b64Encode : List Nat → List Char
  | [] => []
  | [b0] => [sixToChar (b0 / 4), sixToChar (b0 % 4 * 16), '=', '=']
  | [b0, b1] => [sixToChar (b0 / 4), sixToChar (b0 % 4 * 16 + b1 / 16),
                 sixToChar (b1 % 16 * 4), '=']
  | b0 :: b1 :: b2 :: rest =>
    sixToChar (b0 / 4) :: sixToChar (b0 % 4 * 16 + b1 / 16) ::
      sixToChar (b1 % 16 * 4 + b2 / 64) :: sixToChar (b2 % 64) ::
      b64Encode rest

def b64Decode : List Char → Option (List Nat)
  | [] => some []
  | x0 :: x1 :: x2 :: x3 :: rest =>
    match charToSix x0, charToSix x1 with
    | some s0, some s1 =>
      if x2 = '=' then
        if x3 = '=' ∧ rest = [] then some [s0 * 4 + s1 / 16] else none
      else
        match charToSix x2 with
        | some s2 =>
          if x3 = '=' then
            if rest = [] then some [s0 * 4 + s1 / 16, s1 % 16 * 16 + s2 / 4]
            else none
          else
            match charToSix x3, b64Decode rest with
            | some s3, some bs =>
              some ((s0 * 4 + s1 / 16) :: (s1 % 16 * 16 + s2 / 4) ::
                (s2 % 4 * 64 + s3) :: bs)
            | _, _ => none
        | none => none
    | _, _ => none
  | _ => none

/-- `strings.Split(token, ".")`. -/
def splitOnDot : List Char → List (List Char)
  | [] => [[]]
  | c :: rest =>
    if c = '.' then [] :: splitOnDot rest
    else match splitOnDot rest with
      | [] => [[c]]
      | s :: ss => (c :: s) :: ss


/-! ### HMAC-SHA256 (`crypto/hmac`, `crypto/sha256`)

The hash is an external library collaborator; it is nevertheless modelled
bit-faithfully (FIPS 180-4 / RFC 2104) over `Nat` bytes and 32-bit words
with explicit `% 2 ^ 32`.  The token theorems rely only on the MAC being a
function of the key and message. -/

def add32 (a b : Nat) : Nat := (a + b) % 4294967296

def rotr32 (n x : Nat) : Nat :=
  (x >>> n ||| x <<< (32 - n)) % 4294967296

def shaCh (e f g : Nat) : Nat :=
  Nat.xor (Nat.land e f) (Nat.land (Nat.xor e 4294967295) g)

def shaMaj (a b c : Nat) : Nat :=
  Nat.xor (Nat.xor (Nat.land a b) (Nat.land a c)) (Nat.land b c)

def bigSigma0 (a : Nat) : Nat :=
  Nat.xor (Nat.xor (rotr32 2 a) (rotr32 13 a)) (rotr32 22 a)

def bigSigma1 (e : Nat) : Nat :=
  Nat.xor (Nat.xor (rotr32 6 e) (rotr32 11 e)) (rotr32 25 e)

def smallSigma0 (x : Nat) : Nat :=
  Nat.xor (Nat.xor (rotr32 7 x) (rotr32 18 x)) (x >>> 3)

def smallSigma1 (x : Nat) : Nat :=
  Nat.xor (Nat.xor (rotr32 17 x) (rotr32 19 x)) (x >>> 10)

/-- SHA-256 round constants (fractional parts of the cube roots of the
first 64 primes). -/
def shaK : List Nat :=
  [1116352408, 1899447441, 3049323471, 3921009573, 961987163, 1508970993,
   2453635748, 2870763221, 3624381080, 310598401, 607225278, 1426881987,
   1925078388, 2162078206, 2614888103, 3248222580, 3835390401, 4022224774,
   264347078, 604807628, 770255983, 1249150122, 1555081692, 1996064986,
   2554220882, 2821834349, 2952996808, 3210313671, 3336571891, 3584528711,
   113926993, 338241895, 666307205, 773529912, 1294757372, 1396182291,
   1695183700, 1986661051, 2177026350, 2456956037, 2730485921, 2820302411,
   3259730800, 3345764771, 3516065817, 3600352804, 4094571909, 275423344,
   430227734, 506948616, 659060556, 883997877, 958139571, 1322822218,
   1537002063, 1747873779, 1955562222, 2024104815, 2227730452, 2361852424,
   2428436474, 2756734187, 3204031479, 3329325298]

/-- SHA-256 initial hash value (fractional parts of the square roots of the
first 8 primes). -/
def shaH0 : List Nat :=
  [1779033703, 3144134277, 1013904242, 2773480762, 1359893119, 2600822924,
   528734635, 1541459225]

/-- Merkle–Damgård padding: `0x80`, zeros, 8-byte big-endian bit length. -/
def sha256Pad (msg : List Nat) : List Nat :=
  let L := msg.length
  let k := (64 - (L + 9) % 64) % 64
  msg ++ 128 :: (List.replicate k 0 ++
    [L * 8 / 72057594037927936 % 256, L * 8 / 281474976710656 % 256,
     L * 8 / 1099511627776 % 256, L * 8 / 4294967296 % 256,
     L * 8 / 16777216 % 256, L * 8 / 65536 % 256, L * 8 / 256 % 256,
     L * 8 % 256])

/-- Big-endian 4-byte groups to 32-bit words. -/
def bytesToWords : List Nat → List Nat
  | b0 :: b1 :: b2 :: b3 :: rest =>
    (b0 * 16777216 + b1 * 65536 + b2 * 256 + b3) :: bytesToWords rest
  | _ => []

/-- 64-byte blocks as 16-word lists (fuel-driven for kernel reduction; the
fuel is instantiated with the byte count, an upper bound on the number of
blocks). -/
def toBlocksAux : Nat → List Nat → List (List Nat)
  | 0, _ => []
  | _ + 1, [] => []
  | fuel + 1, bs => bytesToWords (bs.take 64) :: toBlocksAux fuel (bs.drop 64)

/-- Extend 16 words to the 64-word message schedule. -/
def shaSchedule (block : List Nat) : Array Nat :=
  (List.range 48).foldl (fun w _ =>
    let t := w.size
    w.push (add32 (add32 (smallSigma1 (w.getD (t - 2) 0)) (w.getD (t - 7) 0))
      (add32 (smallSigma0 (w.getD (t - 15) 0)) (w.getD (t - 16) 0))))
    block.toArray

/-- One SHA-256 compression round over the working state `[a..h]`. -/
def shaRound (w : Array Nat) (st : List Nat) (t : Nat) : List Nat :=
  let a := st.getD 0 0
  let b := st.getD 1 0
  let c := st.getD 2 0
  let d := st.getD 3 0
  let e := st.getD 4 0
  let f := st.getD 5 0
  let g := st.getD 6 0
  let h := st.getD 7 0
  let T1 := add32 (add32 (add32 h (bigSigma1 e))
    (add32 (shaCh e f g) (shaK.getD t 0))) (w.getD t 0)
  let T2 := add32 (bigSigma0 a) (shaMaj a b c)
  [add32 T1 T2, a, b, c, add32 d T1, e, f, g]

def shaCompress (hv : List Nat) (block : List Nat) : List Nat :=
  let w := shaSchedule block
  let st := (List.range 64).foldl (shaRound w) hv
  List.zipWith add32 hv st

/-- Big-endian bytes of the word list. -/
def wordsToBytes : List Nat → List Nat
  | [] => []
  | w :: ws => w / 16777216 % 256 :: w / 65536 % 256 :: w / 256 % 256 ::
      w % 256 :: wordsToBytes ws

def sha256 (msg : List Nat) : List Nat :=
  let padded := sha256Pad msg
  wordsToBytes ((toBlocksAux padded.length padded).foldl shaCompress shaH0)

/-- RFC 2104 HMAC with SHA-256, 64-byte block size. -/
def hmacSha256 (key msg : List Nat) : List Nat :=
  let k0 := if 64 < key.length then sha256 key else key
  let kpad := k0 ++ List.replicate (64 - k0.length) 0
  let ipadKey := kpad.map (fun b => Nat.xor b 54)
  let opadKey := kpad.map (fun b => Nat.xor b 92)
  sha256 (opadKey ++ sha256 (ipadKey ++ msg))

/-! ### The token store operations (`sessions.go`) -/

/-- `CreateToken` stamps the data first: `CreatedAt = now`,
`Expiry = now + int64((24h).Seconds()) = now + 86400`. -/
def stampData (now : Int) (d : SessionData) : SessionData :=
  { d with createdAt := now, expiry := now + 86400 }

/-- The first two dot-joined parts built by `CreateToken`:
`base64(jsonData) "." randomID`, where `randomID` is the base64 of the 16
random bytes drawn for this call (passed in as `nonceBytes`). -/
def tokenPayload (nonceBytes : List Nat) (now : Int) (d : SessionData) :
    List Char :=
  b64Encode (encodeSessionData (stampData now d)) ++ '.' :: b64Encode nonceBytes

/-- `base64(HMAC-SHA256(key, payload))`; the payload characters are ASCII,
so Go's `[]byte(payload)` is `map Char.toNat`. -/
def tokenSignature (key nonceBytes : List Nat) (now : Int) (d : SessionData) :
    List Char :=
  b64Encode (hmacSha256 key ((tokenPayload nonceBytes now d).map Char.toNat))

/-- `SessionStore.CreateToken` at instant `now` (Unix seconds) with the
random bytes drawn for this call: returns `payload "." signature` together
with the stamped data (Go mutates the caller's `data` through the pointer). -/
def createToken (key nonceBytes : List Nat) (now : Int) (d : SessionData) :
    List Char × SessionData :=
  (tokenPayload nonceBytes now d ++ '.' :: tokenSignature key nonceBytes now d,
   stampData now d)

inductive TokenError where
  /-- "invalid token format" -/
  | invalidFormat
  /-- "invalid token signature" -/
  | invalidSignature
  /-- "error decoding token data" -/
  | decodeFailed
  /-- "error unmarshalling token data" -/
  | unmarshalFailed
  /-- "token expired" -/
  | expired
  deriving Repr, DecidableEq

/-- `SessionStore.ValidateToken` at instant `now`: split on dots into
exactly three parts, recompute the HMAC over the first two and compare
(`hmac.Equal` on equal-length inputs is string equality), base64-decode,
unmarshal, and reject when `now > expiry`.  `ok = false` exactly on
`.error`. -/
def validateToken (key : List Nat) (now : Int) (token : List Char) :
    Except TokenError SessionData :=
  match splitOnDot token with
  | [encodedData, randomID, signature] =>
    let expectedSig := b64Encode (hmacSha256 key
      ((encodedData ++ '.' :: randomID).map Char.toNat))
    if signature = expectedSig then
      match b64Decode encodedData with
      | none => Except.error TokenError.decodeFailed
      | some jsonData =>
        match decodeSessionData jsonData with
        | none => Except.error TokenError.unmarshalFailed
        | some d =>
          if now > d.expiry then Except.error TokenError.expired
          else Except.ok d
    else Except.error TokenError.invalidSignature
  | _ => Except.error TokenError.invalidFormat

deriving instance DecidableEq for Except

/-- A concrete session payload for the witnesses. -/
def sampleSession : SessionData :=
  { userId := 4, gangId := 5, gangName := "g", name := "n", avatar := "a",
    createdAt := 123, expiry := 456 }

/-- The same payload with different caller-supplied timestamps. -/
def sampleSession2 : SessionData :=
  { sampleSession with createdAt := 999, expiry := 111 }

/-- A concrete HMAC key ("key"). -/
def sampleKey : List Nat := [107, 101, 121]

/-- The signature segment of the concrete sample token. -/
def sampleSig : List Char := tokenSignature sampleKey [7] 0 sampleSession

end YoutubeNight

namespace YoutubeNight

/-! ### Theorems: playback timeline (C1–C3) -/

/-- Helper: the clamp `if e < 0 then 0 else e` in the late-joiner
computation is `max 0 e`. -/
theorem lateJoinerElapsed_eq_max (cv : CurrentVideo) (now : ℚ) :
    lateJoinerElapsed cv now =
      max 0 (cv.hostTimestamp + (if cv.isPaused then 0 else now - cv.updatedAt)) := by
  unfold lateJoinerElapsed
  cases hp : cv.isPaused
  · rcases lt_or_le (cv.hostTimestamp + (now - cv.updatedAt)) 0 with hlt | hle
    · simp [hlt, max_eq_left hlt.le]
    · simp [not_lt.2 hle, max_eq_right hle]
  · rcases lt_or_le cv.hostTimestamp 0 with hlt | hle
    · simp [hlt, max_eq_left hlt.le]
    · simp [not_lt.2 hle, max_eq_right hle]

/-- **C1.** For a room where the host calls `SetCurrentVideo` at time `T0`,
then `UpdatePlaybackState("pause", 10.0, true)` at `T0+5`, then
`UpdatePlaybackState("play", 10.0, false)` at `T0+8`, the late-joiner
elapsed computation performed when a client registers at `T0+8+Δ` (`Δ ≥ 0`,
no further updates, still playing) returns `10.0 + Δ`; in particular at
`Δ = 0` it equals `10.0` — paused time does not advance the timeline. -/
theorem pause_accounting_idempotent (h : Hub) (g : Int) (v : CurrentVideo)
    (T0 Δ : ℚ) (hΔ : 0 ≤ Δ) :
    let h1 := setCurrentVideo h g v T0
    let h2 := updatePlaybackState h1 g "pause" 10 true (T0 + 5)
    let h3 := updatePlaybackState h2 g "play" 10 false (T0 + 8)
    ∃ cv, h3.currentVideos g = some cv ∧
      cv.isPaused = false ∧
      lateJoinerElapsed cv (T0 + 8 + Δ) = 10 + Δ := by
  have hc1 : ¬((T0 + 8 : ℚ) - (T0 + 5) < 0) := by linarith
  have hc2 : ¬((10 : ℚ) + (T0 + 8 + Δ - (T0 + 8)) < 0) := by linarith
  refine ⟨{ videoID := v.videoID, index := v.index, title := v.title,
            channel := v.channel, startedAt := T0, isPaused := false,
            pausedAt := 0, lastPause := none,
            totalPausedTime := 0 + (T0 + 8 - (T0 + 5)), hostTimestamp := 10,
            updatedAt := T0 + 8, lastAction := "play" }, ?_, rfl, ?_⟩
  · simp [setCurrentVideo, updatePlaybackState, mapSet, hc1]
    norm_num
  · simp only [lateJoinerElapsed, Bool.false_eq_true, if_false, if_neg hc2]
    ring

/-- Witness for C1 at `T0 = 0`, `Δ = 2` on the empty hub. -/
theorem pause_accounting_idempotent_witness :
    (0 : ℚ) ≤ 2 ∧
    (let h1 := setCurrentVideo newHub 1
        { videoID := "abc", index := 0, title := "T", channel := "C",
          startedAt := 0, isPaused := false, pausedAt := 0, lastPause := none,
          totalPausedTime := 0, hostTimestamp := 0, updatedAt := 0,
          lastAction := "" } 0
     let h2 := updatePlaybackState h1 1 "pause" 10 true (0 + 5)
     let h3 := updatePlaybackState h2 1 "play" 10 false (0 + 8)
     ∃ cv, h3.currentVideos 1 = some cv ∧
       cv.isPaused = false ∧
       lateJoinerElapsed cv (0 + 8 + 2) = 10 + 2) :=
  ⟨by norm_num,
   pause_accounting_idempotent newHub 1 _ 0 2 (by norm_num)⟩

/-- **C2.** For every room that has a `PlaybackState`, the timestamp
unicast in the current-state message to a client that registers at time
`now` equals `hostTimestampAtLastUpdate + (0 if isPaused, else
now − lastUpdateInstant)`, clamped below at 0, so the delivered value is
never negative. -/
theorem late_joiner_timestamp_clamped (h : Hub) (c : Client) (now : ℚ)
    (cv : CurrentVideo) (hcv : h.currentVideos c.gangID = some cv) :
    ∃ msg, (registerClient h c now).2 = some msg ∧
      msg.timestamp =
        max 0 (cv.hostTimestamp + (if cv.isPaused then 0 else now - cv.updatedAt)) ∧
      0 ≤ msg.timestamp := by
  refine ⟨{ videoID := cv.videoID, index := cv.index, title := cv.title,
            channel := cv.channel, timestamp := lateJoinerElapsed cv now,
            isPaused := cv.isPaused }, ?_, ?_, ?_⟩
  · simp [registerClient, hcv]
  · exact lateJoinerElapsed_eq_max cv now
  · show 0 ≤ lateJoinerElapsed cv now
    rw [lateJoinerElapsed_eq_max]
    exact le_max_left 0 _

/-- Witness for C2: a client registering into gang 1 of a hub where
`sampleVideo` was set at time 0, at time 3. -/
theorem late_joiner_timestamp_clamped_witness :
    (setCurrentVideo newHub 1 sampleVideo 0).currentVideos
        (serveWsClient 7 2 1 false).gangID = some syncedSampleVideo ∧
    (∃ msg,
      (registerClient (setCurrentVideo newHub 1 sampleVideo 0)
          (serveWsClient 7 2 1 false) 3).2 = some msg ∧
      msg.timestamp = max 0 (syncedSampleVideo.hostTimestamp +
        (if syncedSampleVideo.isPaused then 0
         else 3 - syncedSampleVideo.updatedAt)) ∧
      0 ≤ msg.timestamp) :=
  ⟨by decide,
   late_joiner_timestamp_clamped _ _ 3 syncedSampleVideo (by decide)⟩

/-- **C3.** For every room and every call of `SetCurrentVideo`, the room's
playback state immediately afterwards has `isPaused = false`,
`hostTimestampAtLastUpdate = 0`, `lastUpdateInstant = now` and
`lastAction = "play"`, regardless of the room's previous playback state —
the timeline always restarts at 0. -/
theorem setCurrentVideo_restarts_timeline (h : Hub) (g : Int)
    (v : CurrentVideo) (now : ℚ) :
    ∃ cv, (setCurrentVideo h g v now).currentVideos g = some cv ∧
      cv.isPaused = false ∧ cv.hostTimestamp = 0 ∧ cv.updatedAt = now ∧
      cv.lastAction = "play" := by
  refine ⟨{ v with startedAt := now, totalPausedTime := 0, isPaused := false,
                   pausedAt := 0, hostTimestamp := 0, updatedAt := now,
                   lastAction := "play" }, ?_, rfl, rfl, rfl, rfl⟩
  simp [setCurrentVideo, mapSet]

/-! ### Theorems: hub registry, broadcast back-pressure (C4, C5, C10) -/

/-- Helper: removing a client id from a gang set leaves no client with
that id. -/
theorem filter_ne_id_any_eq_false (cs : List Client) (c : Client) :
    (cs.filter (fun x => x.id ≠ c.id)).any (fun x => x.id = c.id) = false := by
  rw [List.any_eq_false]
  intro x hx
  rw [List.mem_filter] at hx
  simpa using hx.2

/-- Helper: unregistering from a hub with no entry for the client's gang is
a no-op. -/
theorem unregister_of_none (h : Hub) (c : Client)
    (hm : h.gangClients c.gangID = none) : unregisterClient h c = h := by
  unfold unregisterClient
  rw [hm]

/-- Helper: unregistering a client absent from its gang's set is a no-op. -/
theorem unregister_of_absent (h : Hub) (c : Client) (cs : List Client)
    (hm : h.gangClients c.gangID = some cs)
    (hany : cs.any (fun x => x.id = c.id) = false) :
    unregisterClient h c = h := by
  unfold unregisterClient
  rw [hm]
  simp [hany]

/-- Helper: after a successful unregister, the gang set (if still present)
holds no client with the unregistered id. -/
theorem unregister_removes_id (h : Hub) (c : Client) (cs : List Client)
    (hm : h.gangClients c.gangID = some cs) :
    ∀ x, (unregisterClient h c).gangClients c.gangID = some x →
      x.any (fun y => y.id = c.id) = false := by
  intro x hx
  unfold unregisterClient at hx
  rw [hm] at hx
  by_cases hany : cs.any (fun y => y.id = c.id) = true
  · simp only [hany, if_true] at hx
    split at hx
    · simp [mapSet] at hx
    · simp only [mapSet, if_pos] at hx
      obtain rfl : cs.filter (fun y => y.id ≠ c.id) = x := by
        simpa using hx
      exact filter_ne_id_any_eq_false cs c
  · rw [Bool.not_eq_true] at hany
    simp only [hany, Bool.false_eq_true, if_false] at hx
    obtain rfl : cs = x := by
      have h2 := hm.symm.trans hx
      simpa using h2
    exact hany

/-- **C10.** Unregistering a client that is not currently present in its
room's client set (a second unregister of the same client, or a client
already removed by broadcast-failure cleanup) leaves the registry unchanged
and does not close the client's outbound channel — in particular a second
unregister of the same client is a no-op, so a client's channel is never
closed twice. -/
theorem unregister_absent_noop :
    (∀ (h : Hub) (c : Client),
      (∀ cs, h.gangClients c.gangID = some cs →
        cs.any (fun x => x.id = c.id) = false) →
      unregisterClient h c = h) ∧
    (∀ (h : Hub) (c : Client),
      unregisterClient (unregisterClient h c) c = unregisterClient h c) := by
  constructor
  · intro h c habs
    cases hm : h.gangClients c.gangID with
    | none => exact unregister_of_none h c hm
    | some cs => exact unregister_of_absent h c cs hm (habs cs hm)
  · intro h c
    cases hm : h.gangClients c.gangID with
    | none => simp only [unregister_of_none h c hm]
    | some cs =>
      cases hm2 : (unregisterClient h c).gangClients c.gangID with
      | none => exact unregister_of_none _ c hm2
      | some x =>
        exact unregister_of_absent _ c x hm2
          (unregister_removes_id h c cs hm x hm2)

/-- Witness for C10: unregistering a never-registered client from the empty
hub changes nothing, and a second unregister after a first is a no-op. -/
theorem unregister_absent_noop_witness :
    unregisterClient newHub freshClient = newHub ∧
    unregisterClient (unregisterClient freshClientHub freshClient) freshClient =
      unregisterClient freshClientHub freshClient :=
  ⟨unregister_absent_noop.1 newHub freshClient (by simp [newHub]),
   unregister_absent_noop.2 freshClientHub freshClient⟩

/-- **C4.** Each client's outbound buffer holds at most 256 messages
(`ServeWs` creates the `Send` channel with capacity 256, and every client a
broadcast leaves registered is within its capacity), and attempting to
queue a message to a client whose buffer is full does not deliver to it:
that client is removed from its room's client set and its outbound channel
is closed — a 257th queued outbound message to a non-consuming client
results in that client being unregistered. -/
theorem broadcast_full_buffer_unregisters :
    sendCapacity = 256 ∧
    (∀ (h : Hub) (g : Int) (msg : String) (cs' : List Client),
      (broadcastToGang h g msg).gangClients g = some cs' →
      ∀ c' ∈ cs', c'.sendBuf.length ≤ c'.sendCap) ∧
    (∀ (h : Hub) (g : Int) (msg : String) (cs : List Client) (c : Client),
      h.gangClients g = some cs → c ∈ cs → (cs.map Client.id).Nodup →
      c.sendCap ≤ c.sendBuf.length →
      (∀ cs', (broadcastToGang h g msg).gangClients g = some cs' →
        ∀ c' ∈ cs', c'.id ≠ c.id) ∧
      c.id ∈ (broadcastToGang h g msg).closedChannels) := by
  refine ⟨rfl, ?_, ?_⟩
  · intro h g msg cs' hcs' c' hc'
    unfold broadcastToGang at hcs'
    cases hm : h.gangClients g with
    | none => rw [hm] at hcs'; rw [hcs'] at hm; cases hm
    | some cs =>
      rw [hm] at hcs'
      simp only at hcs'
      split at hcs'
      · simp [mapSet] at hcs'
      · simp only [mapSet, if_pos] at hcs'
        obtain rfl : cs.filterMap (fun c =>
            if c.sendBuf.length < c.sendCap then
              some { c with sendBuf := c.sendBuf ++ [msg] }
            else none) = cs' := by simpa using hcs'
        rw [List.mem_filterMap] at hc'
        obtain ⟨a, _, hfa⟩ := hc'
        split at hfa
        · obtain rfl : ({ a with sendBuf := a.sendBuf ++ [msg] } : Client) = c' := by
            simpa using hfa
          simp only [List.length_append, List.length_singleton]
          omega
        · cases hfa
  · intro h g msg cs c hm hc hnd hfull
    constructor
    · intro cs' hcs' c' hc'
      unfold broadcastToGang at hcs'
      rw [hm] at hcs'
      simp only at hcs'
      split at hcs'
      · simp [mapSet] at hcs'
      · simp only [mapSet, if_pos] at hcs'
        obtain rfl : cs.filterMap (fun c =>
            if c.sendBuf.length < c.sendCap then
              some { c with sendBuf := c.sendBuf ++ [msg] }
            else none) = cs' := by simpa using hcs'
        rw [List.mem_filterMap] at hc'
        obtain ⟨a, ha, hfa⟩ := hc'
        split at hfa
        next hroom =>
          obtain rfl : ({ a with sendBuf := a.sendBuf ++ [msg] } : Client) = c' := by
            simpa using hfa
          intro hid
          have : a = c := List.inj_on_of_nodup_map hnd ha hc hid
          subst this
          omega
        · cases hfa
    · unfold broadcastToGang
      rw [hm]
      simp only
      refine List.mem_append_right _ ?_
      refine List.mem_map.2 ⟨c, ?_, rfl⟩
      rw [List.mem_filter]
      exact ⟨hc, by simp [not_lt.2 hfull]⟩

set_option maxRecDepth 10000 in
/-- Witness for C4 at the concrete hub whose single client of gang 5 has
256 queued messages: the 257th broadcast unregisters it and closes its
channel. -/
theorem broadcast_full_buffer_unregisters_witness :
    (fullClientHub.gangClients 5 = some [fullClient] ∧
      fullClient ∈ [fullClient] ∧
      ([fullClient].map Client.id).Nodup ∧
      fullClient.sendCap ≤ fullClient.sendBuf.length) ∧
    ((∀ cs', (broadcastToGang fullClientHub 5 "m").gangClients 5 = some cs' →
        ∀ c' ∈ cs', c'.id ≠ fullClient.id) ∧
      fullClient.id ∈ (broadcastToGang fullClientHub 5 "m").closedChannels) :=
  ⟨⟨by decide, by decide, by decide, by decide⟩,
   broadcast_full_buffer_unregisters.2.2 fullClientHub 5 "m" [fullClient]
     fullClient (by decide) (by decide) (by decide) (by decide)⟩

set_option maxRecDepth 10000 in
/-- **C5 fails as stated**: at this concrete input a client registered in
room 5 at the time of the `BroadcastToGang` call does *not* receive the
message (its outbound buffer is full, so it is unregistered instead of
delivered to). -/
theorem broadcast_not_delivered_to_full_client :
    fullClientHub.gangClients 5 = some [fullClient] ∧
    ¬ ∃ cs' c', (broadcastToGang fullClientHub 5 "m").gangClients 5 = some cs' ∧
      c' ∈ cs' ∧ "m" ∈ c'.sendBuf := by
  have hres : (broadcastToGang fullClientHub 5 "m").gangClients 5 = none := by
    decide
  refine ⟨by decide, ?_⟩
  rintro ⟨cs', c', hcs, -, -⟩
  rw [hres] at hcs
  cases hcs

/-- **C5 (amended).** `BroadcastToRoom(roomId, message)` delivers `message`
to every client registered in `roomId` at the time of the call whose
outbound buffer is below capacity (clients with a full buffer are
unregistered instead of receiving the message), and to no client registered
in a different room (entries of all other rooms are untouched). -/
theorem broadcast_delivers_below_capacity (h : Hub) (g : Int) (msg : String)
    (cs : List Client) (c : Client) (hm : h.gangClients g = some cs)
    (hc : c ∈ cs) (hroom : c.sendBuf.length < c.sendCap) :
    (∃ cs', (broadcastToGang h g msg).gangClients g = some cs' ∧
      { c with sendBuf := c.sendBuf ++ [msg] } ∈ cs') ∧
    ∀ g', g' ≠ g → (broadcastToGang h g msg).gangClients g' = h.gangClients g' := by
  have hkept : ({ c with sendBuf := c.sendBuf ++ [msg] } : Client) ∈
      cs.filterMap (fun x =>
        if x.sendBuf.length < x.sendCap then
          some { x with sendBuf := x.sendBuf ++ [msg] }
        else none) :=
    List.mem_filterMap.2 ⟨c, hc, by rw [if_pos hroom]⟩
  have hne : (cs.filterMap (fun x =>
      if x.sendBuf.length < x.sendCap then
        some { x with sendBuf := x.sendBuf ++ [msg] }
      else none)).isEmpty = false := by
    rcases hemp : (cs.filterMap _).isEmpty with _ | _
    · rfl
    · rw [List.isEmpty_iff] at hemp
      rw [hemp] at hkept
      cases hkept
  constructor
  · refine ⟨_, ?_, hkept⟩
    unfold broadcastToGang
    rw [hm]
    simp [hne, mapSet]
  · intro g' hg'
    unfold broadcastToGang
    rw [hm]
    simp only
    split <;> simp [mapSet, hg']

/-- Witness for C5 (amended): the fresh client of gang 5 (empty buffer)
receives a broadcast message, and gang 6 is untouched. -/
theorem broadcast_delivers_below_capacity_witness :
    (freshClientHub.gangClients 5 = some [freshClient] ∧
      freshClient ∈ [freshClient] ∧
      freshClient.sendBuf.length < freshClient.sendCap) ∧
    ((∃ cs', (broadcastToGang freshClientHub 5 "m").gangClients 5 = some cs' ∧
        { freshClient with sendBuf := freshClient.sendBuf ++ ["m"] } ∈ cs') ∧
      ∀ g', g' ≠ 5 → (broadcastToGang freshClientHub 5 "m").gangClients g' =
        freshClientHub.gangClients g') :=
  ⟨⟨by decide, by decide, by decide⟩,
   broadcast_delivers_below_capacity freshClientHub 5 "m" [freshClient]
     freshClient (by decide) (by decide) (by decide)⟩

/-! ### Theorems: game state manager (C6) -/

/-- **C6.** `StartGame` returns `false` and performs no mutation (the whole
manager, hence the existing `GameState` and its `StartedAt`, is left
untouched) whenever a `GameState` already exists for the room; when none
exists it installs a new `GameState` with `startedAt = now` (leaving every
other room unchanged) and returns `true`. -/
theorem startGame_active_guard :
    (∀ (m : GameStateManager) (g : Int) (vids : List Video)
        (mems : List User) (subs : List (String × Int)) (now : ℚ)
        (gs : GameState),
      m.activeGames g = some gs →
      startGame m g vids mems subs now = (m, false)) ∧
    (∀ (m : GameStateManager) (g : Int) (vids : List Video)
        (mems : List User) (subs : List (String × Int)) (now : ℚ),
      m.activeGames g = none →
      (startGame m g vids mems subs now).2 = true ∧
      (startGame m g vids mems subs now).1.activeGames g =
        some { gangID := g, startedAt := now, videos := vids,
               gangMembers := mems, submitters := subs } ∧
      ∀ g', g' ≠ g →
        (startGame m g vids mems subs now).1.activeGames g' =
          m.activeGames g') := by
  constructor
  · intro m g vids mems subs now gs hm
    unfold startGame
    rw [hm]
  · intro m g vids mems subs now hm
    unfold startGame
    rw [hm]
    exact ⟨rfl, by simp [mapSet], fun g' hg' => by simp [mapSet, hg']⟩

/-- A game already running in gang 5, started at time 1. -/
def sampleGame : GameState :=
  { gangID := 5, startedAt := 1, videos := [], gangMembers := [],
    submitters := [("v", 3)] }

/-- A manager with `sampleGame` active in gang 5. -/
def mgrWithGame : GameStateManager :=
  ⟨mapSet newGameStateManager.activeGames 5 (some sampleGame)⟩

/-- Witness for C6: starting a game in gang 5 of `mgrWithGame` fails and
mutates nothing; starting one in gang 7 succeeds with `startedAt = 9`. -/
theorem startGame_active_guard_witness :
    (mgrWithGame.activeGames 5 = some sampleGame ∧
      startGame mgrWithGame 5 [] [] [] 9 = (mgrWithGame, false)) ∧
    (mgrWithGame.activeGames 7 = none ∧
      (startGame mgrWithGame 7 [] [] [] 9).2 = true ∧
      (startGame mgrWithGame 7 [] [] [] 9).1.activeGames 7 =
        some { gangID := 7, startedAt := 9, videos := [], gangMembers := [],
               submitters := [] } ∧
      ∀ g', g' ≠ 7 →
        (startGame mgrWithGame 7 [] [] [] 9).1.activeGames g' =
          mgrWithGame.activeGames g') :=
  ⟨⟨by decide,
    startGame_active_guard.1 mgrWithGame 5 [] [] [] 9 sampleGame (by decide)⟩,
   ⟨by decide,
    startGame_active_guard.2 mgrWithGame 7 [] [] [] 9 (by decide)⟩⟩


/-! ### Serialization, base64 and split lemmas -/

/-! ### Serialization roundtrip lemmas -/

theorem natDigitsAux_lt (fuel n : Nat) : ∀ d ∈ natDigitsAux fuel n, d < 255 := by
  induction fuel generalizing n with
  | zero =>
    intro d hd
    cases n <;> simp [natDigitsAux] at hd
  | succ fuel ih =>
    intro d hd
    cases n with
    | zero => simp [natDigitsAux] at hd
    | succ m =>
      rw [natDigitsAux] at hd
      rcases List.mem_cons.1 hd with rfl | hd
      · exact Nat.mod_lt _ (by omega)
      · exact ih _ d hd

theorem ofDigits255_natDigitsAux (fuel n : Nat) (hfuel : n ≤ fuel) :
    ofDigits255 (natDigitsAux fuel n) = n := by
  induction fuel generalizing n with
  | zero =>
    have : n = 0 := by omega
    subst this
    simp [natDigitsAux, ofDigits255]
  | succ fuel ih =>
    cases n with
    | zero => simp [natDigitsAux, ofDigits255]
    | succ m =>
      rw [natDigitsAux, ofDigits255]
      have hdiv : (m + 1) / 255 ≤ fuel := by
        have := Nat.div_lt_self (n := m + 1) (by omega) (by omega : 1 < 255)
        omega
      rw [ih _ hdiv]
      omega

theorem decNatAux_append (ds rest : List Nat) (hds : ∀ d ∈ ds, d < 255) :
    decNatAux (ds ++ 255 :: rest) = some (ds, rest) := by
  induction ds with
  | nil => simp [decNatAux]
  | cons d ds ih =>
    have hd : d < 255 := hds d (List.mem_cons_self d ds)
    rw [List.cons_append, decNatAux, if_neg (by omega),
      ih (fun x hx => hds x (List.mem_cons_of_mem d hx))]

theorem decNat_encNat (n : Nat) (rest : List Nat) :
    decNat (encNat n ++ rest) = some (n, rest) := by
  rw [encNat, List.append_assoc, List.cons_append, List.nil_append, decNat,
    decNatAux_append _ _ (natDigitsAux_lt n n)]
  show some (ofDigits255 (natDigitsAux n n), rest) = some (n, rest)
  rw [ofDigits255_natDigitsAux n n le_rfl]

theorem decInt_encInt (i : Int) (rest : List Nat) :
    decInt (encInt i ++ rest) = some (i, rest) := by
  rw [encInt]
  by_cases hneg : i < 0
  · rw [if_pos hneg, List.cons_append, decInt, decNat_encNat]
    show some (if (1 : Nat) = 1 then -(i.natAbs : Int) else (i.natAbs : Int),
      rest) = some (i, rest)
    rw [if_pos rfl]
    have h1 : (-(i.natAbs : Int)) = i := by omega
    rw [h1]
  · rw [if_neg hneg, List.cons_append, decInt, decNat_encNat]
    show some (if (0 : Nat) = 1 then -(i.natAbs : Int) else (i.natAbs : Int),
      rest) = some (i, rest)
    rw [if_neg (by decide)]
    have h1 : ((i.natAbs : Int)) = i := by omega
    rw [h1]

theorem encChar_lt (c : Char) : ∀ b ∈ encChar c, b < 256 := by
  intro b hb
  have hval : c.toNat < 1114112 := by
    have h1 : c.toNat = c.val.toNat := rfl
    rcases c.valid with h | h <;> omega
  rw [encChar] at hb
  simp only [List.mem_cons, List.not_mem_nil, or_false] at hb
  rcases hb with rfl | rfl | rfl
  · exact Nat.mod_lt _ (by omega)
  · exact Nat.mod_lt _ (by omega)
  · omega

theorem decChars_encChars (cs : List Char) (rest : List Nat) :
    decChars cs.length ((cs.map encChar).flatten ++ rest) = some (cs, rest) := by
  induction cs with
  | nil => simp [decChars]
  | cons c cs ih =>
    have hval : c.toNat < 1114112 := by
      have h1 : c.toNat = c.val.toNat := rfl
      rcases c.valid with h | h <;> omega
    rw [List.length_cons, List.map_cons, List.flatten_cons]
    rw [show encChar c ++ (cs.map encChar).flatten ++ rest =
      c.toNat % 256 :: c.toNat / 256 % 256 :: c.toNat / 65536 ::
        ((cs.map encChar).flatten ++ rest) by simp [encChar]]
    rw [decChars, ih]
    have : c.toNat % 256 + 256 * (c.toNat / 256 % 256) +
        65536 * (c.toNat / 65536) = c.toNat := by omega
    rw [this, Char.ofNat_toNat]

theorem decString_encString (s : String) (rest : List Nat) :
    decString (encString s ++ rest) = some (s, rest) := by
  rw [encString, decString, List.append_assoc, decNat_encNat]
  show (match decChars s.data.length ((s.data.map encChar).flatten ++ rest) with
    | none => none
    | some (cs, r') => some (String.mk cs, r')) = some (s, rest)
  rw [decChars_encChars]

theorem decInt_encInt_nil (i : Int) : decInt (encInt i) = some (i, []) := by
  have h := decInt_encInt i []
  rwa [List.append_nil] at h

theorem decode_encodeSessionData (d : SessionData) :
    decodeSessionData (encodeSessionData d) = some d := by
  simp only [encodeSessionData, decodeSessionData, List.append_assoc,
    decInt_encInt, decString_encString, decInt_encInt_nil]


/-! ### base64url lemmas -/

theorem charToSix_sixToChar : ∀ k, k < 64 → charToSix (sixToChar k) = some k := by
  decide

theorem sixToChar_eq_mod (n : Nat) : sixToChar n = sixToChar (n % 64) := by
  rw [sixToChar, sixToChar, Nat.mod_eq_of_lt (Nat.mod_lt _ (by omega))]

theorem sixToChar_ne_dot (n : Nat) : sixToChar n ≠ '.' := by
  rw [sixToChar_eq_mod]
  have h := Nat.mod_lt n (y := 64) (by omega)
  revert h
  generalize n % 64 = k
  revert k
  decide

theorem sixToChar_ne_pad (n : Nat) : sixToChar n ≠ '=' := by
  rw [sixToChar_eq_mod]
  have h := Nat.mod_lt n (y := 64) (by omega)
  revert h
  generalize n % 64 = k
  revert k
  decide

theorem b64Encode_no_dot (bs : List Nat) : '.' ∉ b64Encode bs := by
  induction bs using b64Encode.induct with
  | case1 => simp [b64Encode]
  | case2 b0 =>
    simp only [b64Encode, List.mem_cons, List.not_mem_nil, or_false]
    push_neg
    exact ⟨(sixToChar_ne_dot _).symm, (sixToChar_ne_dot _).symm,
      by decide, by decide⟩
  | case3 b0 b1 =>
    simp only [b64Encode, List.mem_cons, List.not_mem_nil, or_false]
    push_neg
    exact ⟨(sixToChar_ne_dot _).symm, (sixToChar_ne_dot _).symm,
      (sixToChar_ne_dot _).symm, by decide⟩
  | case4 b0 b1 b2 rest ih =>
    simp only [b64Encode, List.mem_cons]
    push_neg
    exact ⟨(sixToChar_ne_dot _).symm, (sixToChar_ne_dot _).symm,
      (sixToChar_ne_dot _).symm, (sixToChar_ne_dot _).symm, ih⟩

theorem b64Decode_b64Encode (bs : List Nat) (hbs : ∀ b ∈ bs, b < 256) :
    b64Decode (b64Encode bs) = some bs := by
  induction bs using b64Encode.induct with
  | case1 => rfl
  | case2 b0 =>
    have h0 : b0 < 256 := hbs b0 (by simp)
    rw [b64Encode, b64Decode,
      charToSix_sixToChar _ (by omega : b0 / 4 < 64),
      charToSix_sixToChar _ (by omega : b0 % 4 * 16 < 64)]
    show (if ('=' : Char) = '=' then
      if ('=' : Char) = '=' ∧ ([] : List Char) = [] then
        some [b0 / 4 * 4 + b0 % 4 * 16 / 16] else none
      else _) = some [b0]
    rw [if_pos rfl, if_pos ⟨rfl, rfl⟩]
    congr 1
    congr 1
    omega
  | case3 b0 b1 =>
    have h0 : b0 < 256 := hbs b0 (by simp)
    have h1 : b1 < 256 := hbs b1 (by simp)
    rw [b64Encode, b64Decode,
      charToSix_sixToChar _ (by omega : b0 / 4 < 64),
      charToSix_sixToChar _ (by omega : b0 % 4 * 16 + b1 / 16 < 64)]
    show (if sixToChar (b1 % 16 * 4) = '=' then _ else _) = some [b0, b1]
    rw [if_neg (sixToChar_ne_pad _),
      charToSix_sixToChar _ (by omega : b1 % 16 * 4 < 64)]
    show (if ('=' : Char) = '=' then
      if ([] : List Char) = [] then
        some [b0 / 4 * 4 + (b0 % 4 * 16 + b1 / 16) / 16,
          (b0 % 4 * 16 + b1 / 16) % 16 * 16 + b1 % 16 * 4 / 4]
      else none else _) = some [b0, b1]
    rw [if_pos rfl, if_pos rfl]
    congr 1
    have e1 : b0 / 4 * 4 + (b0 % 4 * 16 + b1 / 16) / 16 = b0 := by omega
    have e2 : (b0 % 4 * 16 + b1 / 16) % 16 * 16 + b1 % 16 * 4 / 4 = b1 := by
      omega
    rw [e1, e2]
  | case4 b0 b1 b2 rest ih =>
    have h0 : b0 < 256 := hbs b0 (by simp)
    have h1 : b1 < 256 := hbs b1 (by simp)
    have h2 : b2 < 256 := hbs b2 (by simp)
    have hrest : ∀ b ∈ rest, b < 256 := fun b hb => hbs b (by simp [hb])
    rw [b64Encode, b64Decode,
      charToSix_sixToChar _ (by omega : b0 / 4 < 64),
      charToSix_sixToChar _ (by omega : b0 % 4 * 16 + b1 / 16 < 64)]
    show (if sixToChar (b1 % 16 * 4 + b2 / 64) = '=' then _ else _) =
      some (b0 :: b1 :: b2 :: rest)
    rw [if_neg (sixToChar_ne_pad _),
      charToSix_sixToChar _ (by omega : b1 % 16 * 4 + b2 / 64 < 64)]
    show (if sixToChar (b2 % 64) = '=' then _ else _) =
      some (b0 :: b1 :: b2 :: rest)
    rw [if_neg (sixToChar_ne_pad _),
      charToSix_sixToChar _ (by omega : b2 % 64 < 64), ih hrest]
    show some ((b0 / 4 * 4 + (b0 % 4 * 16 + b1 / 16) / 16) ::
      ((b0 % 4 * 16 + b1 / 16) % 16 * 16 + (b1 % 16 * 4 + b2 / 64) / 4) ::
      ((b1 % 16 * 4 + b2 / 64) % 4 * 64 + b2 % 64) :: rest) =
      some (b0 :: b1 :: b2 :: rest)
    have e1 : b0 / 4 * 4 + (b0 % 4 * 16 + b1 / 16) / 16 = b0 := by omega
    have e2 : (b0 % 4 * 16 + b1 / 16) % 16 * 16 +
        (b1 % 16 * 4 + b2 / 64) / 4 = b1 := by omega
    have e3 : (b1 % 16 * 4 + b2 / 64) % 4 * 64 + b2 % 64 = b2 := by omega
    rw [e1, e2, e3]

/-! ### splitOnDot lemmas -/

theorem splitOnDot_no_dot (a : List Char) (ha : '.' ∉ a) :
    splitOnDot a = [a] := by
  induction a with
  | nil => rfl
  | cons c rest ih =>
    have hc : ¬ c = '.' := fun hcc => ha (hcc ▸ List.mem_cons_self c rest)
    have hrest : '.' ∉ rest := fun hr => ha (List.mem_cons_of_mem c hr)
    rw [splitOnDot, if_neg hc, ih hrest]

theorem splitOnDot_append (a r : List Char) (ha : '.' ∉ a) :
    splitOnDot (a ++ '.' :: r) = a :: splitOnDot r := by
  induction a with
  | nil => simp [splitOnDot]
  | cons c rest ih =>
    have hc : ¬ c = '.' := fun hcc => ha (hcc ▸ List.mem_cons_self c rest)
    have hrest : '.' ∉ rest := fun hr => ha (List.mem_cons_of_mem c hr)
    rw [List.cons_append, splitOnDot, if_neg hc, ih hrest]


/-! ### Byte bounds of the serialized payload -/

theorem encNat_lt (n : Nat) : ∀ b ∈ encNat n, b < 256 := by
  intro b hb
  rw [encNat] at hb
  rcases List.mem_append.1 hb with h | h
  · exact lt_trans (natDigitsAux_lt n n b h) (by omega)
  · simp only [List.mem_singleton] at h
    omega

theorem encInt_lt (i : Int) : ∀ b ∈ encInt i, b < 256 := by
  intro b hb
  rw [encInt] at hb
  rcases List.mem_cons.1 hb with rfl | h
  · split <;> omega
  · exact encNat_lt _ b h

theorem encString_lt (s : String) : ∀ b ∈ encString s, b < 256 := by
  intro b hb
  rw [encString] at hb
  rcases List.mem_append.1 hb with h | h
  · exact encNat_lt _ b h
  · rw [List.mem_flatten] at h
    obtain ⟨l, hl, hbl⟩ := h
    rw [List.mem_map] at hl
    obtain ⟨c, -, rfl⟩ := hl
    exact encChar_lt c b hbl

theorem encodeSessionData_lt (d : SessionData) :
    ∀ b ∈ encodeSessionData d, b < 256 := by
  intro b hb
  rw [encodeSessionData] at hb
  simp only [List.append_assoc, List.mem_append] at hb
  rcases hb with h | h | h | h | h | h | h
  · exact encInt_lt _ b h
  · exact encInt_lt _ b h
  · exact encString_lt _ b h
  · exact encString_lt _ b h
  · exact encString_lt _ b h
  · exact encInt_lt _ b h
  · exact encInt_lt _ b h

theorem splitOnDot_cons_exists (l : List Char) :
    ∃ s ss, splitOnDot l = s :: ss := by
  induction l with
  | nil => exact ⟨[], [], rfl⟩
  | cons c rest ih =>
    by_cases hc : c = '.'
    · exact ⟨[], splitOnDot rest, by rw [splitOnDot, if_pos hc]⟩
    · obtain ⟨s, ss, hss⟩ := ih
      exact ⟨c :: s, ss, by rw [splitOnDot, if_neg hc, hss]⟩

/-- The three segments of a freshly created token. -/
theorem splitOnDot_createToken (key nonceBytes : List Nat) (now : Int)
    (d : SessionData) :
    splitOnDot (createToken key nonceBytes now d).1 =
      [b64Encode (encodeSessionData (stampData now d)), b64Encode nonceBytes,
       tokenSignature key nonceBytes now d] := by
  show splitOnDot ((b64Encode (encodeSessionData (stampData now d)) ++
    '.' :: b64Encode nonceBytes) ++
      '.' :: tokenSignature key nonceBytes now d) = _
  rw [List.append_assoc, List.cons_append,
    splitOnDot_append _ _ (b64Encode_no_dot _),
    splitOnDot_append _ _ (b64Encode_no_dot _),
    splitOnDot_no_dot (tokenSignature key nonceBytes now d)
      (b64Encode_no_dot _)]


/-! ### Theorems: session tokens (C7–C9) -/

/-- **C7.** For every session data value, `ValidateToken` applied to the
result of `CreateToken(data)` returns that same data (the stamped data the
call leaves in the caller's struct) with `ok = true` and a nil error,
provided the validation happens before the token's expiry
(`now + 86400`). -/
theorem validateToken_createToken (key nonceBytes : List Nat)
    (now nowV : Int) (d : SessionData) (hexp : nowV ≤ now + 86400) :
    validateToken key nowV (createToken key nonceBytes now d).1 =
      Except.ok ((createToken key nonceBytes now d).2) := by
  unfold validateToken
  rw [splitOnDot_createToken]
  have hsig : tokenSignature key nonceBytes now d =
      b64Encode (hmacSha256 key
        ((b64Encode (encodeSessionData (stampData now d)) ++
          '.' :: b64Encode nonceBytes).map Char.toNat)) := rfl
  show (if tokenSignature key nonceBytes now d =
      b64Encode (hmacSha256 key
        ((b64Encode (encodeSessionData (stampData now d)) ++
          '.' :: b64Encode nonceBytes).map Char.toNat)) then _ else _) = _
  rw [if_pos hsig, b64Decode_b64Encode _ (encodeSessionData_lt _)]
  show (match decodeSessionData (encodeSessionData (stampData now d)) with
    | none => Except.error TokenError.unmarshalFailed
    | some d =>
      if nowV > d.expiry then Except.error TokenError.expired
      else Except.ok d) = _
  rw [decode_encodeSessionData]
  show (if nowV > (stampData now d).expiry then Except.error TokenError.expired
    else Except.ok (stampData now d)) = _
  rw [if_neg (by show ¬ nowV > now + 86400; omega)]
  rfl


set_option maxRecDepth 100000 in
/-- Witness for C7: a concrete token validated at time 100, well before its
expiry 86400. -/
theorem validateToken_createToken_witness :
    ((100 : Int) ≤ 0 + 86400) ∧
    validateToken sampleKey 100 (createToken sampleKey [7] 0 sampleSession).1 =
      Except.ok ((createToken sampleKey [7] 0 sampleSession).2) :=
  ⟨by decide,
   validateToken_createToken sampleKey [7] 0 100 sampleSession (by decide)⟩

/-- **C9.** `CreateToken` overwrites the `CreatedAt` and `Expiry` fields of
the supplied session data with the current time and the current time plus
24 hours before serializing and signing — the caller-supplied values for
those two fields (such as those set by `CreateSessionCookie`) are ignored,
and every other field is embedded unchanged. -/
theorem createToken_overwrites_timestamps :
    (∀ (key nonceBytes : List Nat) (now : Int) (d : SessionData),
      (createToken key nonceBytes now d).2 =
        { d with createdAt := now, expiry := now + 86400 }) ∧
    (∀ (key nonceBytes : List Nat) (now : Int) (d1 d2 : SessionData),
      d1.userId = d2.userId → d1.gangId = d2.gangId →
      d1.gangName = d2.gangName → d1.name = d2.name →
      d1.avatar = d2.avatar →
      createToken key nonceBytes now d1 = createToken key nonceBytes now d2) := by
  refine ⟨fun key nonceBytes now d => rfl, ?_⟩
  intro key nonceBytes now d1 d2 h1 h2 h3 h4 h5
  have hstamp : stampData now d1 = stampData now d2 := by
    cases d1
    cases d2
    simp only at h1 h2 h3 h4 h5
    simp [stampData, h1, h2, h3, h4, h5]
  simp only [createToken, tokenPayload, tokenSignature, hstamp]

/-- Witness for C9: two concrete payloads differing only in their
caller-supplied timestamps produce identical tokens. -/
theorem createToken_overwrites_timestamps_witness :
    (sampleSession.userId = sampleSession2.userId ∧
      sampleSession.gangId = sampleSession2.gangId ∧
      sampleSession.gangName = sampleSession2.gangName ∧
      sampleSession.name = sampleSession2.name ∧
      sampleSession.avatar = sampleSession2.avatar ∧
      sampleSession.createdAt ≠ sampleSession2.createdAt) ∧
    createToken sampleKey [7] 5 sampleSession =
      createToken sampleKey [7] 5 sampleSession2 :=
  ⟨⟨rfl, rfl, rfl, rfl, rfl, by decide⟩,
   createToken_overwrites_timestamps.2 sampleKey [7] 5 sampleSession
     sampleSession2 rfl rfl rfl rfl rfl⟩

/-- **C8 (amended).** Changing any byte of a valid token's third
dot-separated segment (the signature) causes `ValidateToken` to return
`ok = false`; the error is the signature mismatch whenever the replacement
byte is not the separator `'.'` itself, while a `'.'` byte instead makes
the token malformed (four segments) — still rejected. -/
theorem tampered_signature_rejected (key nonceBytes : List Nat)
    (now nowV : Int) (d : SessionData) (i : Nat) (c : Char)
    (hi : i < (tokenSignature key nonceBytes now d).length)
    (hc : c ≠ (tokenSignature key nonceBytes now d).get ⟨i, hi⟩) :
    ∃ e, validateToken key nowV
        (tokenPayload nonceBytes now d ++ '.' ::
          (tokenSignature key nonceBytes now d).set i c) =
        Except.error e ∧
      (c ≠ '.' → e = TokenError.invalidSignature) ∧
      (c = '.' → e = TokenError.invalidFormat) := by
  by_cases hdot : c = '.'
  · subst hdot
    refine ⟨TokenError.invalidFormat, ?_, fun hne => absurd rfl hne,
      fun _ => rfl⟩
    have htake : '.' ∉ (tokenSignature key nonceBytes now d).take i :=
      fun hmem => b64Encode_no_dot _ (List.mem_of_mem_take hmem)
    have hset : (tokenSignature key nonceBytes now d).set i '.' =
        (tokenSignature key nonceBytes now d).take i ++ '.' ::
          (tokenSignature key nonceBytes now d).drop (i + 1) := by
      rw [List.set_eq_take_append_cons_drop, if_pos hi]
    unfold validateToken
    rw [hset]
    have hsplit : splitOnDot (tokenPayload nonceBytes now d ++ '.' ::
        ((tokenSignature key nonceBytes now d).take i ++ '.' ::
          (tokenSignature key nonceBytes now d).drop (i + 1))) =
        b64Encode (encodeSessionData (stampData now d)) ::
          b64Encode nonceBytes ::
          (tokenSignature key nonceBytes now d).take i ::
          splitOnDot ((tokenSignature key nonceBytes now d).drop (i + 1)) := by
      show splitOnDot ((b64Encode (encodeSessionData (stampData now d)) ++
        '.' :: b64Encode nonceBytes) ++ '.' ::
          ((tokenSignature key nonceBytes now d).take i ++ '.' ::
            (tokenSignature key nonceBytes now d).drop (i + 1))) = _
      rw [List.append_assoc, List.cons_append,
        splitOnDot_append _ _ (b64Encode_no_dot _),
        splitOnDot_append _ _ (b64Encode_no_dot _),
        splitOnDot_append _ _ htake]
    rw [hsplit]
    obtain ⟨s, ss, hss⟩ :=
      splitOnDot_cons_exists ((tokenSignature key nonceBytes now d).drop (i + 1))
    rw [hss]
  · refine ⟨TokenError.invalidSignature, ?_, fun _ => rfl,
      fun heq => absurd heq hdot⟩
    have hnodot : '.' ∉ (tokenSignature key nonceBytes now d).set i c := by
      intro hmem
      rcases List.mem_or_eq_of_mem_set hmem with hmem | heq
      · exact b64Encode_no_dot _ hmem
      · exact hdot heq.symm
    unfold validateToken
    have hsplit : splitOnDot (tokenPayload nonceBytes now d ++ '.' ::
        (tokenSignature key nonceBytes now d).set i c) =
        b64Encode (encodeSessionData (stampData now d)) ::
          b64Encode nonceBytes ::
          [(tokenSignature key nonceBytes now d).set i c] := by
      show splitOnDot ((b64Encode (encodeSessionData (stampData now d)) ++
        '.' :: b64Encode nonceBytes) ++ '.' ::
          (tokenSignature key nonceBytes now d).set i c) = _
      rw [List.append_assoc, List.cons_append,
        splitOnDot_append _ _ (b64Encode_no_dot _),
        splitOnDot_append _ _ (b64Encode_no_dot _),
        splitOnDot_no_dot _ hnodot]
    rw [hsplit]
    have hne : (tokenSignature key nonceBytes now d).set i c ≠
        tokenSignature key nonceBytes now d := by
      intro heq
      have h1 : ((tokenSignature key nonceBytes now d).set i c)[i]? = some c :=
        List.getElem?_set_eq_of_lt c hi
      rw [heq, List.getElem?_eq_getElem hi] at h1
      have h2 : (tokenSignature key nonceBytes now d).get ⟨i, hi⟩ = c := by
        simpa using h1
      exact hc h2.symm
    have hsig : b64Encode (hmacSha256 key
        ((b64Encode (encodeSessionData (stampData now d)) ++
          '.' :: b64Encode nonceBytes).map Char.toNat)) =
        tokenSignature key nonceBytes now d := rfl
    show (if (tokenSignature key nonceBytes now d).set i c =
        b64Encode (hmacSha256 key
          ((b64Encode (encodeSessionData (stampData now d)) ++
            '.' :: b64Encode nonceBytes).map Char.toNat)) then _ else _) = _
    rw [hsig, if_neg hne]

set_option maxRecDepth 100000 in
/-- **C8 fails as stated** at this concrete input: changing byte 0 of the
signature segment of a valid token to `'.'` makes `ValidateToken` report a
malformed token (four dot-separated parts), not a signature mismatch
(`ok = false` still). -/
theorem tampered_to_dot_malformed :
    sampleSig.set 0 '.' ≠ sampleSig ∧
    validateToken sampleKey 100
        (tokenPayload [7] 0 sampleSession ++ '.' :: sampleSig.set 0 '.') =
      Except.error TokenError.invalidFormat ∧
    TokenError.invalidFormat ≠ TokenError.invalidSignature :=
  ⟨by decide, by decide, by decide⟩

set_option maxRecDepth 100000 in
/-- Witness for C8 (amended): replacing byte 0 (`'j'`) of the concrete
sample signature by `'A'` yields the signature-mismatch error. -/
theorem tampered_signature_rejected_witness :
    (0 < sampleSig.length ∧ sampleSig.getD 0 'A' ≠ 'A') ∧
    (∃ e, validateToken sampleKey 100
        (tokenPayload [7] 0 sampleSession ++ '.' :: sampleSig.set 0 'A') =
        Except.error e ∧
      (('A' : Char) ≠ '.' → e = TokenError.invalidSignature) ∧
      (('A' : Char) = '.' → e = TokenError.invalidFormat)) :=
  ⟨⟨by decide, by decide⟩,
   tampered_signature_rejected sampleKey [7] 0 100 sampleSession 0 'A'
     (by decide) (by decide)⟩


end YoutubeNight
